import Mathlib

/-!
Verification of the n3r-sdk prize-distributor client.

Shallow embedding of the two source files:
- `src/unnamed/part_000` — the draw-results legacy normalizer
  `formatDrawResultsFromLegacyDrawResults` (rebuilds the wrapper field by field);
- `src/src/utils/formatDrawResultsFromLegacyDrawResults.ts` — the `PrizeDistributor`
  facade class, the extended legacy normalizer, and `initializePrizeDistributors`.

Big numbers (ethers `BigNumber`) are modelled as `Nat`.  Network reads are
modelled as oracle parameters: a settled promise is an `Option`/`Except` value
(`none` / `.error` = rejected).  External library routines
(`calculateDrawResults`, `prepareClaims`, `getMetadataAndContract`, `batch`)
are oracle parameters as well.
-/

namespace N3R

/-! ## Data model (from `src/types`, reconstructed from the field accesses in the source) -/

/-- One completed lottery draw, as read from the draw buffer. -/
structure Draw where
  drawId : Nat
  timestamp : Nat
  winningRandomNumber : Nat
deriving Repr, DecidableEq

/-- Per-draw prize configuration, as read from the prize-distribution buffer. -/
structure PrizeDistribution where
  matchCardinality : Nat
  numberOfPicks : Nat
  tiers : List Nat
  bitRangeSize : Nat
  prize : Nat
  drawStartTimestampOffset : Nat
  drawEndTimestampOffset : Nat
  maxPicksPerUser : Nat
deriving Repr, DecidableEq

/-- Canonical prize record (`PrizeAwardable`). -/
structure PrizeAwardable where
  amount : Nat
  tierIndex : Nat
  pick : Nat
deriving Repr, DecidableEq

/-- Historical prize record shape: the tier field is named `distributionIndex`. -/
structure LEGACYPrize where
  amount : Nat
  distributionIndex : Nat
  pick : Nat
deriving Repr, DecidableEq

/-- The TS union `LEGACYDrawResults | DrawResults` exposes
`prizes : (PrizeAwardable | LEGACYPrize)[]`; a union member is modelled as a sum. -/
structure DrawResultsInput where
  drawId : Nat
  totalValue : Nat
  prizes : List (LEGACYPrize ⊕ PrizeAwardable)
deriving Repr, DecidableEq

/-- Canonical draw results: `{drawId, totalValue, prizes}`. -/
structure DrawResults where
  drawId : Nat
  totalValue : Nat
  prizes : List PrizeAwardable
deriving Repr, DecidableEq

/-- `BigNumber.from` applied to a value that is already a number: identity in the
`Nat` model of big numbers. -/
def bigNumberFrom (n : Nat) : Nat := n

/-! ## Legacy Normalizer, draw-results conversion (`src/unnamed/part_000`)

The source builds each normalized prize as
`{ amount: BigNumber.from(prize.amount),
   tierIndex: 'distributionIndex' in prize ? prize.distributionIndex : prize.tierIndex,
   pick: BigNumber.from(prize.pick) }`
and rebuilds the wrapper as exactly `{drawId, totalValue, prizes}`.
The `'distributionIndex' in prize` shape test is the match on the sum. -/

def formatDrawResultsFromLegacyDrawResults (legacyDrawResult : DrawResultsInput) :
    DrawResults :=
  let prizes : List PrizeAwardable := legacyDrawResult.prizes.map fun prize =>
    { amount := bigNumberFrom (match prize with
        | .inl p => p.amount
        | .inr p => p.amount)
      tierIndex := match prize with
        | .inl p => p.distributionIndex
        | .inr p => p.tierIndex
      pick := bigNumberFrom (match prize with
        | .inl p => p.pick
        | .inr p => p.pick) }
  { drawId := legacyDrawResult.drawId
    totalValue := legacyDrawResult.totalValue
    prizes := prizes }

/-- Re-inject a canonical result into the union input type (a `DrawResults` value
is a valid member of `LEGACYDrawResults | DrawResults`). -/
def DrawResults.toInput (d : DrawResults) : DrawResultsInput :=
  { drawId := d.drawId, totalValue := d.totalValue, prizes := d.prizes.map Sum.inr }

/-! ## Legacy Normalizer, extended conversion
(`src/src/utils/formatDrawResultsFromLegacyDrawResults.ts`)

The extended variant uses object spread: each prize becomes
`{...prize, tierIndex: 'distributionIndex' in prize ? prize.distributionIndex : prize.tierIndex}`
— so a legacy prize keeps its `distributionIndex` field — and the wrapper becomes
`{...legacyDrawResult, prizes: normalizedPrizes}`, a shallow merge that keeps all
sibling fields.  Open-record semantics of the spread is modelled with `Option`
fields on the prize and a polymorphic `extra` field on the wrapper. -/

/-- A prize of the union `PrizeAwardable | LEGACYPrize` seen as a JS object:
either tier-field key may be present. -/
structure ExtPrize where
  amount : Nat
  pick : Nat
  distributionIndex : Option Nat
  tierIndex : Option Nat
deriving Repr, DecidableEq

/-- The `ExtendedLEGACYDrawResults | ExtendedDrawResults` wrapper: draw results plus
arbitrary additional metadata fields, modelled by `extra`. -/
structure ExtDrawResults (α : Type) where
  drawId : Nat
  totalValue : Nat
  prizes : List ExtPrize
  extra : α
deriving Repr, DecidableEq

/-- One prize under the extended conversion:
`{...prize, tierIndex: 'distributionIndex' in prize ? prize.distributionIndex : prize.tierIndex}`. -/
def normalizeExtPrize (prize : ExtPrize) : ExtPrize :=
  { prize with
    tierIndex := if prize.distributionIndex.isSome then prize.distributionIndex
      else prize.tierIndex }

/-- The extended conversion: `{...legacyDrawResult, prizes: normalizedPrizes}`. -/
def formatDrawResultsFromLegacyDrawResultsExt {α : Type}
    (legacyDrawResult : ExtDrawResults α) : ExtDrawResults α :=
  { legacyDrawResult with prizes := legacyDrawResult.prizes.map normalizeExtPrize }

/-! ## Helper lemmas for the normalizer -/

/-- `normalizeExtPrize` is idempotent on one prize. -/
theorem normalizeExtPrize_idem (p : ExtPrize) :
    normalizeExtPrize (normalizeExtPrize p) = normalizeExtPrize p := by
  cases hp : p.distributionIndex <;> simp [normalizeExtPrize, hp]

/-- A prize with no `distributionIndex` field is left unchanged by `normalizeExtPrize`. -/
theorem normalizeExtPrize_of_none (p : ExtPrize) (h : p.distributionIndex = none) :
    normalizeExtPrize p = p := by
  cases p with
  | mk amount pick distributionIndex tierIndex =>
    simp only at h
    subst h
    rfl

/-- Normalizing a list of canonical prizes is the identity. -/
theorem map_normalizeExtPrize_of_none (l : List ExtPrize)
    (h : ∀ p ∈ l, p.distributionIndex = none) : l.map normalizeExtPrize = l := by
  induction l with
  | nil => rfl
  | cons a t ih =>
    simp only [List.map_cons]
    rw [normalizeExtPrize_of_none a (h a (List.mem_cons_self a t)),
      ih (fun p hp => h p (List.mem_cons_of_mem a hp))]

/-- Normalizing a prize list twice equals normalizing it once. -/
theorem map_normalizeExtPrize_idem (l : List ExtPrize) :
    (l.map normalizeExtPrize).map normalizeExtPrize = l.map normalizeExtPrize := by
  induction l with
  | nil => rfl
  | cons a t ih => simp only [List.map_cons, normalizeExtPrize_idem, ih]

/-- C5: the draw-results conversion returns exactly `{drawId, totalValue, prizes}`
with one output prize per input prize; a legacy prize has its `distributionIndex`
mapped to `tierIndex` with `amount` and `pick` copied verbatim; a canonical prize
passes through unchanged; and the prize `{distributionIndex := 3, amount := 100,
pick := 5}` becomes `{tierIndex := 3, amount := 100, pick := 5}`. -/
theorem C5_draw_results_conversion_spec :
    (∀ input : DrawResultsInput,
        (formatDrawResultsFromLegacyDrawResults input).drawId = input.drawId ∧
        (formatDrawResultsFromLegacyDrawResults input).totalValue = input.totalValue ∧
        (formatDrawResultsFromLegacyDrawResults input).prizes.length =
          input.prizes.length) ∧
    (∀ (input : DrawResultsInput) (i : Nat) (p : LEGACYPrize),
        input.prizes[i]? = some (Sum.inl p) →
        (formatDrawResultsFromLegacyDrawResults input).prizes[i]? =
          some { amount := p.amount, tierIndex := p.distributionIndex, pick := p.pick }) ∧
    (∀ (input : DrawResultsInput) (i : Nat) (p : PrizeAwardable),
        input.prizes[i]? = some (Sum.inr p) →
        (formatDrawResultsFromLegacyDrawResults input).prizes[i]? = some p) ∧
    (∀ drawId totalValue : Nat,
        formatDrawResultsFromLegacyDrawResults
            { drawId := drawId, totalValue := totalValue,
              prizes := [Sum.inl { amount := 100, distributionIndex := 3, pick := 5 }] } =
          { drawId := drawId, totalValue := totalValue,
            prizes := [{ amount := 100, tierIndex := 3, pick := 5 }] }) := by
  refine ⟨fun input => ⟨rfl, rfl, by simp [formatDrawResultsFromLegacyDrawResults]⟩,
    fun input i p hp => ?_, fun input i p hp => ?_, fun drawId totalValue => rfl⟩
  · simp [formatDrawResultsFromLegacyDrawResults, List.getElem?_map, hp, bigNumberFrom]
  · simp [formatDrawResultsFromLegacyDrawResults, List.getElem?_map, hp, bigNumberFrom]

/-- Concrete legacy prize used by the witnesses (spec example: distributionIndex 3,
amount 100, pick 5). -/
def exampleLegacyPrize : LEGACYPrize :=
  { amount := 100, distributionIndex := 3, pick := 5 }

/-- Concrete legacy draw-results wrapper used by the witnesses. -/
def exampleLegacyInput : DrawResultsInput :=
  { drawId := 7, totalValue := 100, prizes := [Sum.inl exampleLegacyPrize] }

/-- C5 witness: the legacy-prize clause evaluated at a concrete input. -/
theorem C5_draw_results_conversion_spec_witness :
    exampleLegacyInput.prizes[0]? = some (Sum.inl exampleLegacyPrize) ∧
    (formatDrawResultsFromLegacyDrawResults exampleLegacyInput).prizes[0]? =
      some { amount := 100, tierIndex := 3, pick := 5 } :=
  ⟨by decide,
    C5_draw_results_conversion_spec.2.1 exampleLegacyInput 0 exampleLegacyPrize (by decide)⟩

/-- C6: both conversions are idempotent: each returns an already-canonical input
unchanged, and applying either conversion twice equals applying it once. -/
theorem C6_normalizer_idempotent :
    (∀ d : DrawResults, formatDrawResultsFromLegacyDrawResults d.toInput = d) ∧
    (∀ input : DrawResultsInput,
        formatDrawResultsFromLegacyDrawResults
            (formatDrawResultsFromLegacyDrawResults input).toInput =
          formatDrawResultsFromLegacyDrawResults input) ∧
    (∀ (α : Type) (x : ExtDrawResults α),
        (∀ p ∈ x.prizes, p.distributionIndex = none) →
        formatDrawResultsFromLegacyDrawResultsExt x = x) ∧
    (∀ (α : Type) (x : ExtDrawResults α),
        formatDrawResultsFromLegacyDrawResultsExt
            (formatDrawResultsFromLegacyDrawResultsExt x) =
          formatDrawResultsFromLegacyDrawResultsExt x) := by
  have hcanon : ∀ d : DrawResults, formatDrawResultsFromLegacyDrawResults d.toInput = d := by
    intro d
    cases d with
    | mk drawId totalValue prizes =>
      simp [formatDrawResultsFromLegacyDrawResults, DrawResults.toInput, bigNumberFrom,
        List.map_map, Function.comp_def]
  refine ⟨hcanon, fun input => hcanon _, fun α x hx => ?_, fun α x => ?_⟩
  · cases x with
    | mk drawId totalValue prizes extra =>
      simp only [formatDrawResultsFromLegacyDrawResultsExt]
      rw [map_normalizeExtPrize_of_none prizes hx]
  · cases x with
    | mk drawId totalValue prizes extra =>
      simp only [formatDrawResultsFromLegacyDrawResultsExt]
      rw [map_normalizeExtPrize_idem prizes]

/-- Concrete already-canonical extended wrapper used by the witnesses. -/
def exampleCanonicalExt : ExtDrawResults Unit :=
  { drawId := 4, totalValue := 9,
    prizes := [{ amount := 1, pick := 2, distributionIndex := none, tierIndex := some 0 }],
    extra := () }

/-- C6 witness: the canonical-input clause evaluated at a concrete input. -/
theorem C6_normalizer_idempotent_witness :
    (∀ p ∈ exampleCanonicalExt.prizes, p.distributionIndex = none) ∧
    formatDrawResultsFromLegacyDrawResultsExt exampleCanonicalExt = exampleCanonicalExt :=
  ⟨by decide, C6_normalizer_idempotent.2.2.1 Unit exampleCanonicalExt (by decide)⟩

/-- C7: the extended conversion is a shallow merge: every wrapper field other
than `prizes` is unchanged, and `prizes` is replaced by its normalized form. -/
theorem C7_extended_conversion_frame (α : Type) (x : ExtDrawResults α) :
    (formatDrawResultsFromLegacyDrawResultsExt x).drawId = x.drawId ∧
    (formatDrawResultsFromLegacyDrawResultsExt x).totalValue = x.totalValue ∧
    (formatDrawResultsFromLegacyDrawResultsExt x).extra = x.extra ∧
    (formatDrawResultsFromLegacyDrawResultsExt x).prizes =
      x.prizes.map normalizeExtPrize :=
  ⟨rfl, rfl, rfl, rfl⟩

/-- C10: in the extended conversion, a legacy prize (with `distributionIndex`
present) keeps its original `distributionIndex` field alongside the added
`tierIndex`, with `amount` and `pick` unchanged. -/
theorem C10_extended_retains_distributionIndex {α : Type}
    (x : ExtDrawResults α) (i : Nat) (p : ExtPrize) (d : Nat)
    (hp : x.prizes[i]? = some p) (hd : p.distributionIndex = some d) :
    (formatDrawResultsFromLegacyDrawResultsExt x).prizes[i]? =
      some (normalizeExtPrize p) ∧
    (normalizeExtPrize p).distributionIndex = some d ∧
    (normalizeExtPrize p).tierIndex = some d ∧
    (normalizeExtPrize p).amount = p.amount ∧
    (normalizeExtPrize p).pick = p.pick := by
  refine ⟨?_, by simp [normalizeExtPrize, hd], by simp [normalizeExtPrize, hd], rfl, rfl⟩
  simp [formatDrawResultsFromLegacyDrawResultsExt, List.getElem?_map, hp]

/-- Concrete legacy extended prize used by the C10 witness. -/
def exampleLegacyExtPrize : ExtPrize :=
  { amount := 100, pick := 5, distributionIndex := some 3, tierIndex := none }

/-- Concrete legacy extended wrapper used by the C10 witness. -/
def exampleLegacyExt : ExtDrawResults Unit :=
  { drawId := 1, totalValue := 2, prizes := [exampleLegacyExtPrize], extra := () }

/-- C10 witness: evaluated at a concrete legacy prize. -/
theorem C10_extended_retains_distributionIndex_witness :
    exampleLegacyExt.prizes[0]? = some exampleLegacyExtPrize ∧
    exampleLegacyExtPrize.distributionIndex = some 3 ∧
    ((formatDrawResultsFromLegacyDrawResultsExt exampleLegacyExt).prizes[0]? =
        some (normalizeExtPrize exampleLegacyExtPrize) ∧
      (normalizeExtPrize exampleLegacyExtPrize).distributionIndex = some 3 ∧
      (normalizeExtPrize exampleLegacyExtPrize).tierIndex = some 3 ∧
      (normalizeExtPrize exampleLegacyExtPrize).amount = exampleLegacyExtPrize.amount ∧
      (normalizeExtPrize exampleLegacyExtPrize).pick = exampleLegacyExtPrize.pick) :=
  ⟨by decide, by decide,
    C10_extended_retains_distributionIndex exampleLegacyExt 0 exampleLegacyExtPrize 3
      (by decide) (by decide)⟩

/-! ## Range Reconciler (`PrizeDistributor.getValidDrawIds`)

A settled read of a buffer bound (`getOldestDraw`, `getNewestDraw`,
`getOldestPrizeDistribution`, `getNewestPrizeDistribution`) is modelled by an
`Option Nat` carrying the draw id of the fulfilled value (`none` = rejected). -/

/-- The push loop `for (let i = oldestId; i <= newestId; i++) ids.push(i)`. -/
def drawIdLoop (oldestId newestId : Nat) : List Nat :=
  if oldestId ≤ newestId then oldestId :: drawIdLoop (oldestId + 1) newestId else []
termination_by newestId + 1 - oldestId

/-- `getValidDrawIds` given the four settled bound reads: if any read rejected,
return `[]`; otherwise take `max` of the oldest ids and `min` of the newest ids,
return `[]` when the window is inverted, and the inclusive ascending range otherwise. -/
def getValidDrawIds
    (oldestPrizeDistributionResponse newestPrizeDistributionResponse
      oldestDrawResponse newestDrawResponse : Option Nat) : List Nat :=
  match oldestPrizeDistributionResponse, newestPrizeDistributionResponse,
      oldestDrawResponse, newestDrawResponse with
  | some oldestPrizeDistributionId, some newestPrizeDistributionId,
      some oldestDrawId, some newestDrawId =>
    let oldestId := max oldestPrizeDistributionId oldestDrawId
    let newestId := min newestDrawId newestPrizeDistributionId
    if newestId < oldestId then [] else drawIdLoop oldestId newestId
  | _, _, _, _ => []

/-- The per-buffer variant (`getDrawIdsFromDrawBuffer` /
`getDrawIdsFromPrizeDistributionBuffer`): empty when either bound read rejected,
the inclusive range otherwise. -/
def getDrawIdsFromBuffer (oldestResponse newestResponse : Option Nat) : List Nat :=
  match oldestResponse, newestResponse with
  | some oldestId, some newestId => drawIdLoop oldestId newestId
  | _, _ => []

/-- The push loop materializes `List.range'`. -/
theorem drawIdLoop_eq_range' (oldestId newestId : Nat) :
    drawIdLoop oldestId newestId = List.range' oldestId (newestId + 1 - oldestId) := by
  by_cases h : oldestId ≤ newestId
  · rw [drawIdLoop, if_pos h]
    have hsub : newestId + 1 - oldestId = (newestId + 1 - (oldestId + 1)) + 1 := by omega
    rw [hsub, List.range'_succ, drawIdLoop_eq_range' (oldestId + 1) newestId]
  · rw [drawIdLoop, if_neg h]
    have hsub : newestId + 1 - oldestId = 0 := by omega
    rw [hsub, List.range']
termination_by newestId + 1 - oldestId

/-- Membership in the push loop is exactly the inclusive interval. -/
theorem mem_drawIdLoop (oldestId newestId x : Nat) :
    x ∈ drawIdLoop oldestId newestId ↔ oldestId ≤ x ∧ x ≤ newestId := by
  rw [drawIdLoop_eq_range', List.mem_range'_1]
  omega

/-- The push loop produces a strictly ascending list. -/
theorem sorted_drawIdLoop (oldestId newestId : Nat) :
    (drawIdLoop oldestId newestId).Sorted (· < ·) := by
  by_cases h : oldestId ≤ newestId
  · rw [drawIdLoop, if_pos h]
    refine List.Pairwise.cons ?_ (sorted_drawIdLoop (oldestId + 1) newestId)
    intro y hy
    have := (mem_drawIdLoop (oldestId + 1) newestId y).mp hy
    omega
  · rw [drawIdLoop, if_neg h]
    exact List.Pairwise.nil
termination_by newestId + 1 - oldestId

/-- C1: `getValidDrawIds` returns `[]` when any of the four bound reads fails;
otherwise, with lower bound the max of the two oldest ids and upper bound the min
of the two newest ids, it returns `[]` when the window is inverted and otherwise
a strictly ascending list containing exactly the integers of `[lower, upper]`. -/
theorem C1_getValidDrawIds_spec :
    (∀ a b c d : Option Nat, a = none ∨ b = none ∨ c = none ∨ d = none →
        getValidDrawIds a b c d = []) ∧
    (∀ oldestPrizeDistributionId newestPrizeDistributionId oldestDrawId newestDrawId : Nat,
        (min newestDrawId newestPrizeDistributionId <
            max oldestPrizeDistributionId oldestDrawId →
          getValidDrawIds (some oldestPrizeDistributionId) (some newestPrizeDistributionId)
            (some oldestDrawId) (some newestDrawId) = []) ∧
        (getValidDrawIds (some oldestPrizeDistributionId) (some newestPrizeDistributionId)
            (some oldestDrawId) (some newestDrawId)).Sorted (· < ·) ∧
        (∀ x : Nat,
          x ∈ getValidDrawIds (some oldestPrizeDistributionId) (some newestPrizeDistributionId)
              (some oldestDrawId) (some newestDrawId) ↔
            max oldestPrizeDistributionId oldestDrawId ≤ x ∧
              x ≤ min newestDrawId newestPrizeDistributionId)) := by
  constructor
  · rintro a b c d (rfl | rfl | rfl | rfl)
    · rfl
    · cases a <;> rfl
    · cases a <;> cases b <;> rfl
    · cases a <;> cases b <;> cases c <;> rfl
  · intro opd npd od nd
    have hunfold : getValidDrawIds (some opd) (some npd) (some od) (some nd) =
        if min nd npd < max opd od then [] else drawIdLoop (max opd od) (min nd npd) := rfl
    refine ⟨fun h => by rw [hunfold, if_pos h], ?_, fun x => ?_⟩
    · rw [hunfold]
      by_cases h : min nd npd < max opd od
      · rw [if_pos h]
        exact List.Pairwise.nil
      · rw [if_neg h]
        exact sorted_drawIdLoop (max opd od) (min nd npd)
    · rw [hunfold]
      by_cases h : min nd npd < max opd od
      · rw [if_pos h]
        simp only [List.not_mem_nil, false_iff]
        omega
      · rw [if_neg h, mem_drawIdLoop]

/-- C1 witness: the rejected-read clause and the window clauses evaluated at the
spec's examples: bounds (2, 10) and (5, 8) give [5, 6, 7, 8]; a rejected read
gives []. -/
theorem C1_getValidDrawIds_spec_witness :
    ((none : Option Nat) = none ∨ (some 8 : Option Nat) = none ∨
        (some 2 : Option Nat) = none ∨ (some 10 : Option Nat) = none) ∧
    getValidDrawIds none (some 8) (some 2) (some 10) = [] ∧
    getValidDrawIds (some 5) (some 8) (some 2) (some 10) = [5, 6, 7, 8] ∧
    (6 ∈ getValidDrawIds (some 5) (some 8) (some 2) (some 10) ↔
      max 5 2 ≤ 6 ∧ 6 ≤ min 10 8) :=
  ⟨Or.inl rfl,
    C1_getValidDrawIds_spec.1 none (some 8) (some 2) (some 10) (Or.inl rfl),
    by rw [show getValidDrawIds (some 5) (some 8) (some 2) (some 10) = drawIdLoop 5 8 from rfl,
      drawIdLoop_eq_range']; rfl,
    (C1_getValidDrawIds_spec.2 5 8 2 10).2.2 6⟩

/-! ## `PrizeDistributor.getUsersPrizes`

The prize-distribution fetch, the normalized-balance read and the external
`calculateDrawResults` routine are oracle parameters.  `ethers.constants.Zero`
is `0` in the `Nat` model. -/

/-- The user record handed to the external prize calculator. -/
structure DrawCalcUser where
  address : String
  normalizedBalances : List Nat
deriving Repr, DecidableEq

/-- `getUsersPrizes`: fetch the prize distribution for `draw.drawId`, fetch the
user's normalized balance for that draw id, and either short-circuit on a zero
balance or delegate to `calculateDrawResults`. -/
def getUsersPrizes
    (getPrizeDistribution : Nat → PrizeDistribution)
    (getNormalizedBalance : String → Nat → Nat)
    (calculateDrawResults : PrizeDistribution → Draw → DrawCalcUser → DrawResults)
    (usersAddress : String) (draw : Draw) : DrawResults :=
  let prizeDistribution := getPrizeDistribution draw.drawId
  let normalizedBalance := getNormalizedBalance usersAddress draw.drawId
  let user : DrawCalcUser :=
    { address := usersAddress, normalizedBalances := [normalizedBalance] }
  if normalizedBalance = 0 then
    { drawId := draw.drawId, totalValue := 0, prizes := [] }
  else
    calculateDrawResults prizeDistribution draw user

/-- C4: with a zero normalized balance, `getUsersPrizes` returns
`{drawId, totalValue := 0, prizes := []}` and is independent of the external
prize-calculation routine (it is not invoked); with a nonzero balance it returns
exactly the external routine applied to the fetched distribution, the draw, and
`{address, normalizedBalances := [balance]}`. -/
theorem C4_getUsersPrizes_spec
    (getPrizeDistribution : Nat → PrizeDistribution)
    (getNormalizedBalance : String → Nat → Nat)
    (calc1 calc2 : PrizeDistribution → Draw → DrawCalcUser → DrawResults)
    (usersAddress : String) (draw : Draw) :
    (getNormalizedBalance usersAddress draw.drawId = 0 →
        getUsersPrizes getPrizeDistribution getNormalizedBalance calc1 usersAddress draw =
          { drawId := draw.drawId, totalValue := 0, prizes := [] } ∧
        getUsersPrizes getPrizeDistribution getNormalizedBalance calc1 usersAddress draw =
          getUsersPrizes getPrizeDistribution getNormalizedBalance calc2 usersAddress draw) ∧
    (getNormalizedBalance usersAddress draw.drawId ≠ 0 →
        getUsersPrizes getPrizeDistribution getNormalizedBalance calc1 usersAddress draw =
          calc1 (getPrizeDistribution draw.drawId) draw
            { address := usersAddress,
              normalizedBalances := [getNormalizedBalance usersAddress draw.drawId] }) := by
  constructor
  · intro h
    constructor <;> simp [getUsersPrizes, h]
  · intro h
    simp [getUsersPrizes, h]

/-- Constant-zero balance oracle for the C4 witness. -/
def zeroBalanceOracle : String → Nat → Nat := fun _ _ => 0

/-- Constant prize-distribution oracle for the witnesses. -/
def constPrizeDistribution : Nat → PrizeDistribution := fun _ =>
  { matchCardinality := 1, numberOfPicks := 1, tiers := [1], bitRangeSize := 1,
    prize := 1, drawStartTimestampOffset := 0, drawEndTimestampOffset := 0,
    maxPicksPerUser := 1 }

/-- A draw-calculator oracle that would report a nonzero prize if it were invoked. -/
def loudCalc : PrizeDistribution → Draw → DrawCalcUser → DrawResults := fun _ d _ =>
  { drawId := d.drawId, totalValue := 999, prizes := [] }

/-- A second, different draw-calculator oracle. -/
def quietCalc : PrizeDistribution → Draw → DrawCalcUser → DrawResults := fun _ d _ =>
  { drawId := d.drawId, totalValue := 0, prizes := [] }

/-- A concrete draw used by the witnesses. -/
def exampleDraw : Draw := { drawId := 3, timestamp := 20, winningRandomNumber := 77 }

/-- C4 witness: at a zero balance the result is the empty prize record for both
calculator oracles. -/
theorem C4_getUsersPrizes_spec_witness :
    zeroBalanceOracle "0xabc" exampleDraw.drawId = 0 ∧
    (getUsersPrizes constPrizeDistribution zeroBalanceOracle loudCalc "0xabc" exampleDraw =
        { drawId := exampleDraw.drawId, totalValue := 0, prizes := [] } ∧
      getUsersPrizes constPrizeDistribution zeroBalanceOracle loudCalc "0xabc" exampleDraw =
        getUsersPrizes constPrizeDistribution zeroBalanceOracle quietCalc "0xabc" exampleDraw) :=
  ⟨rfl,
    (C4_getUsersPrizes_spec constPrizeDistribution zeroBalanceOracle loudCalc quietCalc
      "0xabc" exampleDraw).1 rfl⟩

/-! ## `PrizeDistributor.claimPrizesByDrawResults`

The facade is bound to either a read-only provider or a signer; the signer's
network is its chain id.  The validation helpers live in `src/utils/validation`,
which is not part of the provided sources, so they are modelled from the spec.
`prepareClaims` is the external claim-preparation routine.  A returned `.ok`
value is the claim transaction submitted to the network, so an `.error` result
means no claim transaction was submitted. -/

/-- A facade binding: read-only provider, or signer with a network and an address. -/
inductive SignerOrProvider where
  | provider
  | signer (network : Nat) (address : String)
deriving Repr, DecidableEq

/-- The error kinds raised by the claim path. -/
inductive PrizeDistributorError where
  | signerRequiredError (message : String)
  | networkMismatchError (message : String)
  | nothingToClaimError (message : String)
deriving Repr, DecidableEq

/-- Modelled from the spec: `validateIsSigner` (signer-presence validation from
`src/utils/validation`, not under `src/`) fails with `SignerRequiredError` when the
binding is a read-only provider and otherwise returns the signer. -/
def validateIsSigner (signerOrProvider : SignerOrProvider) :
    Except PrizeDistributorError (Nat × String) :=
  match signerOrProvider with
  | .provider => .error (.signerRequiredError "Signer required")
  | .signer network address => .ok (network, address)

/-- `getUsersAddress`: validate that a signer is present, then return its address. -/
def getUsersAddress (signerOrProvider : SignerOrProvider) :
    Except PrizeDistributorError String :=
  (validateIsSigner signerOrProvider).map (fun s => s.2)

/-- Modelled from the spec: `validateSignerNetwork` (signer-network-match
validation from `src/utils/validation`, not under `src/`) fails with
`NetworkMismatchError` when the signer's network differs from the chain id. -/
def validateSignerNetwork (signerOrProvider : SignerOrProvider) (chainId : Nat) :
    Except PrizeDistributorError Unit :=
  match signerOrProvider with
  | .provider => .error (.signerRequiredError "Signer required")
  | .signer network _ =>
    if network = chainId then .ok ()
    else .error (.networkMismatchError "Signer network does not match")

/-- A claim handed to the distributor contract. -/
structure Claim where
  userAddress : String
  drawIds : List Nat
  encodedWinningPickIndices : List Nat
deriving Repr, DecidableEq

/-- The submitted claim transaction: the claim plus the fixed gas-limit override. -/
structure ClaimTx where
  claim : Claim
  gasLimit : Nat
deriving Repr, DecidableEq

/-- `claimPrizesByDrawResults`: require a signer, require a network match, require
a nonzero total value, then build a claim with `prepareClaims` and submit it with
a `gasLimit := 400000` override. -/
def claimPrizesByDrawResults
    (signerOrProvider : SignerOrProvider) (chainId : Nat)
    (prepareClaims : String → List DrawResults → Claim)
    (drawResults : DrawResults) : Except PrizeDistributorError ClaimTx := do
  let usersAddress ← getUsersAddress signerOrProvider
  let _ ← validateSignerNetwork signerOrProvider chainId
  if drawResults.totalValue = 0 then
    throw (.nothingToClaimError "No prizes to claim.")
  else
    pure { claim := prepareClaims usersAddress [drawResults], gasLimit := 400000 }

/-- C3: the claim path fails with `SignerRequiredError` on a read-only provider,
with `NetworkMismatchError` on a signer network different from the facade's chain
id, and with `NothingToClaimError` on a zero total value — in which case no claim
transaction is submitted (the result is never `.ok`). -/
theorem C3_claimPrizesByDrawResults_errors
    (chainId : Nat) (prepareClaims : String → List DrawResults → Claim)
    (drawResults : DrawResults) :
    (∃ m, claimPrizesByDrawResults .provider chainId prepareClaims drawResults =
        .error (.signerRequiredError m)) ∧
    (∀ network address, network ≠ chainId →
        ∃ m, claimPrizesByDrawResults (.signer network address) chainId prepareClaims
            drawResults =
          .error (.networkMismatchError m)) ∧
    (∀ address, drawResults.totalValue = 0 →
        (∃ m, claimPrizesByDrawResults (.signer chainId address) chainId prepareClaims
            drawResults =
          .error (.nothingToClaimError m)) ∧
        (∀ tx : ClaimTx,
          claimPrizesByDrawResults (.signer chainId address) chainId prepareClaims
              drawResults ≠
            .ok tx)) := by
  refine ⟨⟨"Signer required", rfl⟩, fun network address hne => ?_, fun address h0 => ?_⟩
  · refine ⟨"Signer network does not match", ?_⟩
    simp [claimPrizesByDrawResults, getUsersAddress, validateIsSigner,
      validateSignerNetwork, hne, Except.map, bind, Except.bind]
  · have hrun : claimPrizesByDrawResults (.signer chainId address) chainId prepareClaims
        drawResults = .error (.nothingToClaimError "No prizes to claim.") := by
      simp [claimPrizesByDrawResults, getUsersAddress, validateIsSigner,
        validateSignerNetwork, h0, Except.map, bind, Except.bind, throw, throwThe,
        MonadExceptOf.throw]
    exact ⟨⟨"No prizes to claim.", hrun⟩, fun tx => by rw [hrun]; exact fun h => by cases h⟩

/-- A zero-total-value draw results record for the C3 witness. -/
def emptyDrawResults : DrawResults := { drawId := 3, totalValue := 0, prizes := [] }

/-- A concrete claim-preparation oracle for the C3 witness. -/
def examplePrepareClaims : String → List DrawResults → Claim := fun address drs =>
  { userAddress := address, drawIds := drs.map (fun dr => dr.drawId),
    encodedWinningPickIndices := [] }

/-- C3 witness: the network-mismatch and nothing-to-claim clauses evaluated on a
concrete facade with chain id 1. -/
theorem C3_claimPrizesByDrawResults_errors_witness :
    ((2 : Nat) ≠ 1 ∧
      ∃ m, claimPrizesByDrawResults (.signer 2 "0xabc") 1 examplePrepareClaims
          emptyDrawResults =
        .error (.networkMismatchError m)) ∧
    (emptyDrawResults.totalValue = 0 ∧
      (∃ m, claimPrizesByDrawResults (.signer 1 "0xabc") 1 examplePrepareClaims
          emptyDrawResults =
        .error (.nothingToClaimError m)) ∧
      (∀ tx : ClaimTx,
        claimPrizesByDrawResults (.signer 1 "0xabc") 1 examplePrepareClaims
            emptyDrawResults ≠
          .ok tx)) :=
  ⟨⟨by decide,
    (C3_claimPrizesByDrawResults_errors 1 examplePrepareClaims emptyDrawResults).2.1
      2 "0xabc" (by decide)⟩,
    ⟨rfl,
      (C3_claimPrizesByDrawResults_errors 1 examplePrepareClaims emptyDrawResults).2.2
        "0xabc" rfl⟩⟩

/-! ## Lazy contract-handle caches (`getAndSetEthersContract` and the two getters)

A facade's mutable fields `drawBuffer` / `drawBufferContract` (and the
prize-distributions pair) form one cache slot each.  The address read from the
calculator contract and the registry lookup (`getMetadataAndContract`, repo code
outside `src/`) are oracle parameters.  A call returns the contract handle, the
facade state after the call, and the number of address-fetch/registry resolutions
it performed. -/

/-- Static contract metadata, as far as the caching logic observes it. -/
structure ContractMetadata where
  address : String
  chainId : Nat
deriving Repr, DecidableEq

/-- One lazy cache slot: the `this[contractMetadataKey]` / `this[contractKey]`
field pair, both `undefined` until first resolution. -/
structure CacheSlot (C : Type) where
  metadata : Option ContractMetadata
  contract : Option C
deriving Repr, DecidableEq

/-- `getAndSetEthersContract`: return the cached handle when the contract field is
set; otherwise fetch the address, resolve metadata and handle through the
registry, store both, and return the handle.  The `Nat` counts resolutions. -/
def getAndSetEthersContract {C : Type} (slot : CacheSlot C)
    (getContractAddress : Unit → String)
    (getMetadataAndContract : String → ContractMetadata × C) :
    C × CacheSlot C × Nat :=
  match slot.contract with
  | some c => (c, slot, 0)
  | none =>
    let contractAddress := getContractAddress ()
    let resolved := getMetadataAndContract contractAddress
    (resolved.2, { metadata := some resolved.1, contract := some resolved.2 }, 1)

/-- The mutable handle caches of one `PrizeDistributor` facade. -/
structure FacadeState (C : Type) where
  drawBufferSlot : CacheSlot C
  prizeDistributionsBufferSlot : CacheSlot C
deriving Repr, DecidableEq

/-- `getDrawBufferContract`: resolve through the draw-buffer slot. -/
def getDrawBufferContract {C : Type} (s : FacadeState C)
    (getDrawBufferAddress : Unit → String)
    (getMetadataAndContract : String → ContractMetadata × C) :
    C × FacadeState C × Nat :=
  let r := getAndSetEthersContract s.drawBufferSlot getDrawBufferAddress
    getMetadataAndContract
  (r.1, { s with drawBufferSlot := r.2.1 }, r.2.2)

/-- `getPrizeDistributionsBufferContract`: resolve through the
prize-distributions-buffer slot. -/
def getPrizeDistributionsBufferContract {C : Type} (s : FacadeState C)
    (getPrizeDistributionsBufferAddress : Unit → String)
    (getMetadataAndContract : String → ContractMetadata × C) :
    C × FacadeState C × Nat :=
  let r := getAndSetEthersContract s.prizeDistributionsBufferSlot
    getPrizeDistributionsBufferAddress getMetadataAndContract
  (r.1, { s with prizeDistributionsBufferSlot := r.2.1 }, r.2.2)

/-- C9: each handle cache is written at most once.  After any call the slot holds
the returned handle; a later call — with any oracles — returns that cached handle,
leaves the state unchanged and performs zero resolutions; a call on an
already-populated slot likewise resolves nothing; and each getter leaves the other
getter's slot untouched. -/
theorem C9_lazy_cache_write_once {C : Type} (s : FacadeState C)
    (f g : Unit → String) (r q : String → ContractMetadata × C) :
    ((getDrawBufferContract s f r).2.1.drawBufferSlot.contract =
        some (getDrawBufferContract s f r).1 ∧
      (∀ f2 r2, getDrawBufferContract (getDrawBufferContract s f r).2.1 f2 r2 =
        ((getDrawBufferContract s f r).1, (getDrawBufferContract s f r).2.1, 0)) ∧
      (∀ c, s.drawBufferSlot.contract = some c →
        getDrawBufferContract s f r = (c, s, 0)) ∧
      (getDrawBufferContract s f r).2.1.prizeDistributionsBufferSlot =
        s.prizeDistributionsBufferSlot) ∧
    ((getPrizeDistributionsBufferContract s g q).2.1.prizeDistributionsBufferSlot.contract =
        some (getPrizeDistributionsBufferContract s g q).1 ∧
      (∀ g2 q2, getPrizeDistributionsBufferContract
          (getPrizeDistributionsBufferContract s g q).2.1 g2 q2 =
        ((getPrizeDistributionsBufferContract s g q).1,
          (getPrizeDistributionsBufferContract s g q).2.1, 0)) ∧
      (∀ c, s.prizeDistributionsBufferSlot.contract = some c →
        getPrizeDistributionsBufferContract s g q = (c, s, 0)) ∧
      (getPrizeDistributionsBufferContract s g q).2.1.drawBufferSlot =
        s.drawBufferSlot) := by
  constructor
  · refine ⟨?_, ?_, fun c hc => ?_, ?_⟩
    · cases h : s.drawBufferSlot.contract <;>
        simp [getDrawBufferContract, getAndSetEthersContract, h]
    · intro f2 r2
      cases h : s.drawBufferSlot.contract <;>
        simp [getDrawBufferContract, getAndSetEthersContract, h]
    · cases s with
      | mk d p =>
        cases d with
        | mk md ct =>
          simp only at hc
          subst hc
          rfl
    · cases h : s.drawBufferSlot.contract <;>
        simp [getDrawBufferContract, getAndSetEthersContract, h]
  · refine ⟨?_, ?_, fun c hc => ?_, ?_⟩
    · cases h : s.prizeDistributionsBufferSlot.contract <;>
        simp [getPrizeDistributionsBufferContract, getAndSetEthersContract, h]
    · intro g2 q2
      cases h : s.prizeDistributionsBufferSlot.contract <;>
        simp [getPrizeDistributionsBufferContract, getAndSetEthersContract, h]
    · cases s with
      | mk d p =>
        cases p with
        | mk md ct =>
          simp only at hc
          subst hc
          rfl
    · cases h : s.prizeDistributionsBufferSlot.contract <;>
        simp [getPrizeDistributionsBufferContract, getAndSetEthersContract, h]

/-- The freshly-constructed facade state: both caches `undefined`. -/
def initialFacadeState : FacadeState String :=
  { drawBufferSlot := { metadata := none, contract := none },
    prizeDistributionsBufferSlot := { metadata := none, contract := none } }

/-- A concrete registry oracle for the C9 witness: the handle is the address. -/
def exampleRegistry : String → ContractMetadata × String := fun address =>
  ({ address := address, chainId := 1 }, address)

/-- C9 witness: the populated-slot clause evaluated after a first call on the
fresh facade state. -/
theorem C9_lazy_cache_write_once_witness :
    ((getDrawBufferContract initialFacadeState (fun _ => "0xbuf") exampleRegistry).2.1.drawBufferSlot.contract =
        some "0xbuf" ∧
      getDrawBufferContract
          (getDrawBufferContract initialFacadeState (fun _ => "0xbuf") exampleRegistry).2.1
          (fun _ => "0xother") exampleRegistry =
        ("0xbuf",
          (getDrawBufferContract initialFacadeState (fun _ => "0xbuf") exampleRegistry).2.1,
          0)) :=
  ⟨(C9_lazy_cache_write_once initialFacadeState (fun _ => "0xbuf") (fun _ => "0xbuf")
      exampleRegistry exampleRegistry).1.1,
    (C9_lazy_cache_write_once initialFacadeState (fun _ => "0xbuf") (fun _ => "0xbuf")
      exampleRegistry exampleRegistry).1.2.1 (fun _ => "0xother") exampleRegistry⟩

/-! ## `initializePrizeDistributors` failure propagation

The per-chain batched address fetch (`fetchClaimableDrawAddressesByChainId`) is an
oracle from chain id to a settled result.  The pipeline after the settled-response
scan (grouping, extension with children, facade construction) uses repo utilities
outside `src/` and cannot fail on fetch results; it is abstracted as
`buildPrizeDistributors`. -/

/-- The `forEach` over `Promise.allSettled` responses: push each fulfilled value,
`throw new Error(response.reason)` at the first rejected one. -/
def collectSettledResponses {ε α : Type} : List (Except ε α) → Except ε (List α)
  | [] => .ok []
  | .ok a :: rest => (collectSettledResponses rest).map (fun l => a :: l)
  | .error e :: rest => .error e

/-- `initializePrizeDistributors`, abstracted over the per-chain batch fetch and
the downstream facade construction: scan the settled per-chain responses and
either abort with the propagated reason or build the facade list. -/
def initializePrizeDistributors {χ π : Type}
    (fetchClaimableDrawAddressesByChainId : Nat → Except String χ)
    (buildPrizeDistributors : List χ → List π)
    (chainIds : List Nat) : Except String (List π) :=
  (collectSettledResponses (chainIds.map fetchClaimableDrawAddressesByChainId)).map
    buildPrizeDistributors

/-- If some response is rejected, the scan aborts with an error. -/
theorem collectSettledResponses_error {ε α : Type} (rs : List (Except ε α))
    (h : ∃ r ∈ rs, ∀ a : α, r ≠ .ok a) :
    ∃ e, collectSettledResponses rs = .error e := by
  induction rs with
  | nil =>
    obtain ⟨r, hr, _⟩ := h
    exact absurd hr (List.not_mem_nil r)
  | cons head rest ih =>
    obtain ⟨r, hr, hbad⟩ := h
    cases head with
    | error e => exact ⟨e, rfl⟩
    | ok a =>
      rcases List.mem_cons.mp hr with rfl | hr'
      · exact absurd rfl (hbad a)
      · obtain ⟨e, he⟩ := ih ⟨r, hr', hbad⟩
        exact ⟨e, by simp [collectSettledResponses, he, Except.map]⟩

/-- If every response is fulfilled, the scan returns all values. -/
theorem collectSettledResponses_ok {ε α : Type} (rs : List (Except ε α))
    (h : ∀ r ∈ rs, ∃ a : α, r = .ok a) :
    ∃ l, collectSettledResponses rs = .ok l := by
  induction rs with
  | nil => exact ⟨[], rfl⟩
  | cons head rest ih =>
    obtain ⟨a, ha⟩ := h head (List.mem_cons_self head rest)
    obtain ⟨l, hl⟩ := ih (fun r hr => h r (List.mem_cons_of_mem head hr))
    refine ⟨a :: l, ?_⟩
    rw [ha]
    simp [collectSettledResponses, hl, Except.map]

/-- C8: a failed per-chain batch aborts the whole initialization with an error —
no facade list is produced for any chain — while all-fulfilled responses produce
the full list.  The failure is never converted into a partial result. -/
theorem C8_initializePrizeDistributors_abort {χ π : Type}
    (fetchClaimableDrawAddressesByChainId : Nat → Except String χ)
    (buildPrizeDistributors : List χ → List π)
    (chainIds : List Nat) :
    ((∃ chainId ∈ chainIds, ∃ e, fetchClaimableDrawAddressesByChainId chainId = .error e) →
        (∃ e, initializePrizeDistributors fetchClaimableDrawAddressesByChainId
            buildPrizeDistributors chainIds = .error e) ∧
        (∀ l : List π, initializePrizeDistributors fetchClaimableDrawAddressesByChainId
            buildPrizeDistributors chainIds ≠ .ok l)) ∧
    ((∀ chainId ∈ chainIds, ∃ a, fetchClaimableDrawAddressesByChainId chainId = .ok a) →
        ∃ l : List π, initializePrizeDistributors fetchClaimableDrawAddressesByChainId
            buildPrizeDistributors chainIds = .ok l) := by
  constructor
  · intro hfail
    have herr : ∃ e, collectSettledResponses
        (chainIds.map fetchClaimableDrawAddressesByChainId) = .error e := by
      apply collectSettledResponses_error
      obtain ⟨chainId, hmem, e, he⟩ := hfail
      refine ⟨fetchClaimableDrawAddressesByChainId chainId, List.mem_map_of_mem _ hmem, ?_⟩
      intro a
      rw [he]
      exact fun h => by cases h
    obtain ⟨e, he⟩ := herr
    refine ⟨⟨e, by simp [initializePrizeDistributors, he, Except.map]⟩, fun l => ?_⟩
    simp [initializePrizeDistributors, he, Except.map]
  · intro hok
    have : ∃ l, collectSettledResponses
        (chainIds.map fetchClaimableDrawAddressesByChainId) = .ok l := by
      apply collectSettledResponses_ok
      intro r hr
      obtain ⟨chainId, hmem, rfl⟩ := List.mem_map.mp hr
      exact hok chainId hmem
    obtain ⟨l, hl⟩ := this
    exact ⟨buildPrizeDistributors l, by simp [initializePrizeDistributors, hl, Except.map]⟩

/-- A per-chain fetch oracle for the C8 witness: chain 10 fails, others succeed. -/
def exampleChainFetch : Nat → Except String Nat := fun chainId =>
  if chainId = 10 then .error "batch failed" else .ok chainId

/-- C8 witness: with chains [1, 10], the failing chain aborts the initialization. -/
theorem C8_initializePrizeDistributors_abort_witness :
    (∃ chainId ∈ [1, 10], ∃ e, exampleChainFetch chainId = .error e) ∧
    ((∃ e, initializePrizeDistributors exampleChainFetch (fun l => l) [1, 10] =
        .error e) ∧
      (∀ l : List Nat,
        initializePrizeDistributors exampleChainFetch (fun l => l) [1, 10] ≠ .ok l)) :=
  ⟨⟨10, by decide, "batch failed", rfl⟩,
    (C8_initializePrizeDistributors_abort exampleChainFetch (fun l => l) [1, 10]).1
      ⟨10, by decide, "batch failed", rfl⟩⟩

/-! ## `PrizeDistributor.getDrawsAndPrizeDistributions`

The two batched buffer reads are oracles returning a settled result (`none` =
rejected).  `getDraws` / `getPrizeDistributions` short-circuit on an empty id
list before any network call and otherwise re-pack the fetched records field by
field.  The paired fetch indexes `prizeDistributionsResponse.value[index]`, which
in JS may be `undefined` when the lists have different lengths, hence the
`Option PrizeDistribution` component of each pair. -/

/-- `getDraws`: `[]` for an empty id list without a network call; otherwise the
batched draw-buffer read with each draw re-packed. -/
def getDraws (fetchDraws : List Nat → Option (List Draw)) (drawIds : List Nat) :
    Option (List Draw) :=
  if drawIds.isEmpty then some [] else
    (fetchDraws drawIds).map (List.map fun draw =>
      { drawId := draw.drawId, timestamp := draw.timestamp,
        winningRandomNumber := draw.winningRandomNumber })

/-- `getPrizeDistributions`: `[]` for an empty id list without a network call;
otherwise the batched prize-distribution-buffer read with each record re-packed. -/
def getPrizeDistributions
    (fetchPrizeDistributions : List Nat → Option (List PrizeDistribution))
    (drawIds : List Nat) : Option (List PrizeDistribution) :=
  if drawIds.isEmpty then some [] else
    (fetchPrizeDistributions drawIds).map (List.map fun result =>
      { matchCardinality := result.matchCardinality, tiers := result.tiers,
        bitRangeSize := result.bitRangeSize, maxPicksPerUser := result.maxPicksPerUser,
        numberOfPicks := result.numberOfPicks, prize := result.prize,
        drawStartTimestampOffset := result.drawStartTimestampOffset,
        drawEndTimestampOffset := result.drawEndTimestampOffset })

/-- `drawIds.sort((a, b) => a - b)`: ascending numeric sort. -/
def sortAsc (drawIds : List Nat) : List Nat :=
  drawIds.mergeSort (fun a b => decide (a ≤ b))

/-- `getDrawsAndPrizeDistributions`: fetch both batches; when either is rejected,
drop the largest requested id (`sort` ascending, `slice(0, length - 1)`) and
retry recursively; on success pair each draw with the distribution at its index. -/
def getDrawsAndPrizeDistributions
    (fetchDraws : List Nat → Option (List Draw))
    (fetchPrizeDistributions : List Nat → Option (List PrizeDistribution)) :
    List Nat → List (Draw × Option PrizeDistribution)
  | drawIds =>
    match hd : getDraws fetchDraws drawIds,
        hp : getPrizeDistributions fetchPrizeDistributions drawIds with
    | some draws, some prizeDistributions =>
      draws.mapIdx fun index draw => (draw, prizeDistributions[index]?)
    | none, _ =>
      getDrawsAndPrizeDistributions fetchDraws fetchPrizeDistributions
        ((sortAsc drawIds).dropLast)
    | some _, none =>
      getDrawsAndPrizeDistributions fetchDraws fetchPrizeDistributions
        ((sortAsc drawIds).dropLast)
termination_by drawIds => drawIds.length
decreasing_by
  · have hne : drawIds ≠ [] := by
      intro h
      rw [h] at hd
      simp [getDraws] at hd
    have h2 : 0 < drawIds.length := List.length_pos.mpr hne
    simp_wf
    show (sortAsc drawIds).length - 1 < drawIds.length
    simp only [sortAsc, List.length_mergeSort]
    omega
  · have hne : drawIds ≠ [] := by
      intro h
      rw [h] at hp
      simp [getPrizeDistributions] at hp
    have h2 : 0 < drawIds.length := List.length_pos.mpr hne
    simp_wf
    show (sortAsc drawIds).length - 1 < drawIds.length
    simp only [sortAsc, List.length_mergeSort]
    omega

/-- Sorting does not change membership. -/
theorem mem_sortAsc (x : Nat) (l : List Nat) : x ∈ sortAsc l ↔ x ∈ l := by
  simp [sortAsc]

/-- The ascending sort is sorted. -/
theorem sortAsc_sorted (l : List Nat) :
    (sortAsc l).Pairwise (fun a b => decide (a ≤ b) = true) :=
  List.sorted_mergeSort
    (fun a b c hab hbc => by
      simp only [decide_eq_true_eq] at hab hbc ⊢
      omega)
    (fun a b => by rcases Nat.le_total a b with h | h <;> simp [h]) l

/-- The ascending sort of a nonempty id list is its initial segment followed by a
maximum of the list; dropping the last sorted element therefore drops one copy of
the largest id. -/
theorem sortAsc_dropLast_concat_max (drawIds : List Nat) (hne : drawIds ≠ []) :
    ∃ m, m ∈ drawIds ∧ (∀ x ∈ drawIds, x ≤ m) ∧
      sortAsc drawIds = (sortAsc drawIds).dropLast ++ [m] ∧
      ((sortAsc drawIds).dropLast).length + 1 = drawIds.length := by
  have hlen : (sortAsc drawIds).length = drawIds.length := by
    simp [sortAsc]
  rcases List.eq_nil_or_concat (sortAsc drawIds) with hnil | ⟨init, m, hconcat⟩
  · exfalso
    apply hne
    rw [hnil] at hlen
    exact List.eq_nil_of_length_eq_zero hlen.symm
  · rw [List.concat_eq_append] at hconcat
    have hdrop : (sortAsc drawIds).dropLast = init := by
      rw [hconcat, List.dropLast_concat]
    refine ⟨m, ?_, ?_, ?_, ?_⟩
    · rw [← mem_sortAsc, hconcat]
      exact List.mem_append_right init (List.mem_singleton_self m)
    · intro x hx
      have hx' : x ∈ sortAsc drawIds := (mem_sortAsc x drawIds).mpr hx
      have hsorted := sortAsc_sorted drawIds
      rw [hconcat] at hx' hsorted
      rcases List.mem_append.mp hx' with hinit | hlast
      · have := (List.pairwise_append.mp hsorted).2.2 x hinit m (List.mem_singleton_self m)
        simpa using this
      · rw [List.mem_singleton.mp hlast]
    · rw [hdrop]
      exact hconcat
    · rw [hdrop]
      have hl := congrArg List.length hconcat
      simp only [List.length_append, List.length_singleton] at hl
      omega

/-- On the empty id list the paired fetch returns no pairs. -/
theorem getDrawsAndPrizeDistributions_nil
    (fetchDraws : List Nat → Option (List Draw))
    (fetchPrizeDistributions : List Nat → Option (List PrizeDistribution)) :
    getDrawsAndPrizeDistributions fetchDraws fetchPrizeDistributions [] = [] := by
  rw [getDrawsAndPrizeDistributions]
  rfl

/-- When both batches succeed, each draw is paired with the distribution at its
index. -/
theorem getDrawsAndPrizeDistributions_success
    (fetchDraws : List Nat → Option (List Draw))
    (fetchPrizeDistributions : List Nat → Option (List PrizeDistribution))
    (drawIds : List Nat) (draws : List Draw)
    (prizeDistributions : List PrizeDistribution)
    (hd : getDraws fetchDraws drawIds = some draws)
    (hp : getPrizeDistributions fetchPrizeDistributions drawIds = some prizeDistributions) :
    getDrawsAndPrizeDistributions fetchDraws fetchPrizeDistributions drawIds =
      draws.mapIdx fun index draw => (draw, prizeDistributions[index]?) := by
  rw [getDrawsAndPrizeDistributions]
  split
  · rename_i x y hx hy
    rw [hx] at hd
    rw [hy] at hp
    cases hd
    cases hp
    rfl
  · rename_i hx
    rw [hx] at hd
    cases hd
  · rename_i hy
    rw [hy] at hp
    cases hp

/-- When either batch is rejected, the call retries on the sorted id list without
its last element. -/
theorem getDrawsAndPrizeDistributions_retry
    (fetchDraws : List Nat → Option (List Draw))
    (fetchPrizeDistributions : List Nat → Option (List PrizeDistribution))
    (drawIds : List Nat)
    (h : getDraws fetchDraws drawIds = none ∨
      getPrizeDistributions fetchPrizeDistributions drawIds = none) :
    getDrawsAndPrizeDistributions fetchDraws fetchPrizeDistributions drawIds =
      getDrawsAndPrizeDistributions fetchDraws fetchPrizeDistributions
        ((sortAsc drawIds).dropLast) := by
  rw [getDrawsAndPrizeDistributions]
  split
  · rename_i x y hx hy
    rcases h with h | h
    · rw [hx] at h
      cases h
    · rw [hy] at h
      cases h
  · rfl
  · rfl

/-- C2: the paired fetch is total and follows the spec's recursion: on the empty
id list both batch reads return `some []` without a network call and the result
is `[]`; when both batches succeed, the result pairs each returned draw with the
distribution at its index (one pair per draw, one per id when the batch returns
one draw per id); when either batch is rejected the call equals the recursive
call on the id list with the single largest requested id dropped, which is
strictly shorter. -/
theorem C2_getDrawsAndPrizeDistributions_spec
    (fetchDraws : List Nat → Option (List Draw))
    (fetchPrizeDistributions : List Nat → Option (List PrizeDistribution)) :
    (getDraws fetchDraws [] = some [] ∧
      getPrizeDistributions fetchPrizeDistributions [] = some [] ∧
      getDrawsAndPrizeDistributions fetchDraws fetchPrizeDistributions [] = []) ∧
    (∀ (drawIds : List Nat) (draws : List Draw)
        (prizeDistributions : List PrizeDistribution),
        getDraws fetchDraws drawIds = some draws →
        getPrizeDistributions fetchPrizeDistributions drawIds = some prizeDistributions →
        getDrawsAndPrizeDistributions fetchDraws fetchPrizeDistributions drawIds =
          draws.mapIdx (fun index draw => (draw, prizeDistributions[index]?)) ∧
        (getDrawsAndPrizeDistributions fetchDraws fetchPrizeDistributions
            drawIds).length = draws.length) ∧
    (∀ drawIds : List Nat,
        getDraws fetchDraws drawIds = none ∨
          getPrizeDistributions fetchPrizeDistributions drawIds = none →
        getDrawsAndPrizeDistributions fetchDraws fetchPrizeDistributions drawIds =
          getDrawsAndPrizeDistributions fetchDraws fetchPrizeDistributions
            ((sortAsc drawIds).dropLast) ∧
        drawIds ≠ [] ∧
        (∃ m, m ∈ drawIds ∧ (∀ x ∈ drawIds, x ≤ m) ∧
          sortAsc drawIds = (sortAsc drawIds).dropLast ++ [m] ∧
          ((sortAsc drawIds).dropLast).length + 1 = drawIds.length)) := by
  refine ⟨⟨rfl, rfl, getDrawsAndPrizeDistributions_nil _ _⟩,
    fun drawIds draws prizeDistributions hd hp => ?_, fun drawIds h => ?_⟩
  · have he := getDrawsAndPrizeDistributions_success fetchDraws fetchPrizeDistributions
      drawIds draws prizeDistributions hd hp
    refine ⟨he, ?_⟩
    rw [he]
    simp
  · have hne : drawIds ≠ [] := by
      intro hnil
      rw [hnil] at h
      rcases h with h | h <;> cases h
    exact ⟨getDrawsAndPrizeDistributions_retry _ _ _ h, hne,
      sortAsc_dropLast_concat_max drawIds hne⟩

/-- Batched draw read for the C2 witness: the draw buffer has every requested id. -/
def exampleFetchDraws : List Nat → Option (List Draw) := fun drawIds =>
  some (drawIds.map fun i => { drawId := i, timestamp := 0, winningRandomNumber := 0 })

/-- Batched distribution read for the C2 witness: id 3's distribution is missing,
so any batch containing 3 is rejected. -/
def exampleFetchPrizeDistributions : List Nat → Option (List PrizeDistribution) :=
  fun drawIds =>
    if 3 ∈ drawIds then none
    else some (drawIds.map fun _ => constPrizeDistribution 0)

/-- C2 witness: for ids `[1, 2, 3]` with id 3's distribution missing, the call
retries on `[1, 2]` (the largest id dropped) and the retry succeeds with exactly
two pairs. -/
theorem C2_getDrawsAndPrizeDistributions_spec_witness :
    (getDraws exampleFetchDraws [1, 2, 3] = none ∨
      getPrizeDistributions exampleFetchPrizeDistributions [1, 2, 3] = none) ∧
    getDrawsAndPrizeDistributions exampleFetchDraws exampleFetchPrizeDistributions
        [1, 2, 3] =
      getDrawsAndPrizeDistributions exampleFetchDraws exampleFetchPrizeDistributions
        ((sortAsc [1, 2, 3]).dropLast) ∧
    getDraws exampleFetchDraws [1, 2] =
      some [{ drawId := 1, timestamp := 0, winningRandomNumber := 0 },
        { drawId := 2, timestamp := 0, winningRandomNumber := 0 }] ∧
    (getDrawsAndPrizeDistributions exampleFetchDraws exampleFetchPrizeDistributions
        [1, 2]).length = 2 :=
  ⟨Or.inr (by decide),
    ((C2_getDrawsAndPrizeDistributions_spec exampleFetchDraws
        exampleFetchPrizeDistributions).2.2 [1, 2, 3] (Or.inr (by decide))).1,
    by decide,
    ((C2_getDrawsAndPrizeDistributions_spec exampleFetchDraws
        exampleFetchPrizeDistributions).2.1 [1, 2]
        [{ drawId := 1, timestamp := 0, winningRandomNumber := 0 },
          { drawId := 2, timestamp := 0, winningRandomNumber := 0 }]
        [constPrizeDistribution 0, constPrizeDistribution 0]
        (by decide) (by decide)).2⟩

end N3R
